import Mathlib

/-!
Verification development for the gRPC handler of graphql-mesh
(`packages/handlers/grpc/src/index.ts`).

The handler walks a protobuf reflection tree (serialized to JSON) and
registers GraphQL types and root fields into a `SchemaComposer`.  The
definitions below are a shallow embedding of that file: the JavaScript
string operations it relies on (`String.prototype.replace` with a string
pattern, `split`/`join`, `toLowerCase`, `startsWith`, and the `camel-case` /
`pascal-case` npm packages built on `no-case`), the scalar table, the type
name resolver `getTypeName`, the name qualification steps, and the
recursive `visit` traversal with its field registrations.
-/

namespace GrpcHandler

/-! ## JavaScript string primitives -/

/-- ASCII lowercase letter test (`[a-z]`). -/
def isLowerCh (c : Char) : Bool := decide (97 ≤ c.toNat ∧ c.toNat ≤ 122)

/-- ASCII uppercase letter test (`[A-Z]`). -/
def isUpperCh (c : Char) : Bool := decide (65 ≤ c.toNat ∧ c.toNat ≤ 90)

/-- ASCII digit test (`[0-9]`). -/
def isDigitCh (c : Char) : Bool := decide (48 ≤ c.toNat ∧ c.toNat ≤ 57)

/-- Alphanumeric test (`[A-Za-z0-9]`, i.e. the complement of the `no-case`
strip pattern `[^A-Z0-9]/gi`). -/
def isAlnumCh (c : Char) : Bool := isLowerCh c || isUpperCh c || isDigitCh c

/-- Core of `String.prototype.replace(pat, '')` with a string pattern:
remove the first occurrence of `pat`, leave the rest untouched. -/
def jsReplaceFirstAux (pat : List Char) : List Char → List Char
  | [] => []
  | c :: rest =>
    if pat.isPrefixOf (c :: rest) then (c :: rest).drop pat.length
    else c :: jsReplaceFirstAux pat rest

/-- `s.replace(pat, '')` for a string pattern: JavaScript replaces only the
first occurrence of the pattern, wherever it occurs. -/
def jsReplaceFirst (s pat : String) : String :=
  String.mk (jsReplaceFirstAux pat.data s.data)

/-- Does `pat` occur as a contiguous substring of the list? -/
def occursIn (pat : List Char) : List Char → Bool
  | [] => pat.isPrefixOf ([] : List Char)
  | c :: rest => pat.isPrefixOf (c :: rest) || occursIn pat rest

/-- Core of `String.prototype.split(sep)` with a single-character
separator. -/
def splitChAux (sep : Char) : List Char → List Char → List (List Char)
  | [], acc => [acc.reverse]
  | c :: rest, acc =>
    if c == sep then acc.reverse :: splitChAux sep rest []
    else splitChAux sep rest (c :: acc)

/-- `s.split(sep)` for a single-character separator. -/
def jsSplitChar (sep : Char) (s : String) : List String :=
  (splitChAux sep s.data []).map String.mk

/-- `parts.join(sep)`. -/
def jsJoin (sep : String) (parts : List String) : String :=
  String.intercalate sep parts

/-- `s.toLowerCase()` (ASCII, which is all the handler feeds it). -/
def jsToLowerCase (s : String) : String := String.mk (s.data.map Char.toLower)

/-- `s.startsWith(pre)`. -/
def jsStartsWith (s pre : String) : Bool := pre.data.isPrefixOf s.data

/-! ## The `no-case` word splitter and the camel/pascal transforms

`pascalCase`/`camelCase` from the `pascal-case`/`camel-case` packages run
`noCase` with an empty delimiter: the input is cut at the boundaries
matched by `([a-z0-9])([A-Z])` and `([A-Z])([A-Z][a-z])`, every
non-alphanumeric run is a word separator, and each word is transformed
(first letter upper, rest lower; camel lowers the whole first word;
a word starting with a digit at index > 0 gets a leading underscore). -/

/-- Split one maximal alphanumeric run at the two `no-case` case
boundaries.  `acc` is the current word, reversed. -/
def camelSplitAux : List Char → List Char → List (List Char)
  | [], acc => [acc.reverse]
  | b :: rest, acc =>
    match acc with
    | [] => camelSplitAux rest [b]
    | a :: _ =>
      if (isLowerCh a || isDigitCh a) && isUpperCh b then
        acc.reverse :: camelSplitAux rest [b]
      else if isUpperCh a && isUpperCh b &&
          (match rest with | c :: _ => isLowerCh c | [] => false) then
        acc.reverse :: camelSplitAux rest [b]
      else camelSplitAux rest (b :: acc)

/-- Maximal alphanumeric runs of the input; everything else separates
words (the `no-case` strip pattern). -/
def alnumRunsAux : List Char → List Char → List (List Char)
  | [], acc => if acc.isEmpty then [] else [acc.reverse]
  | c :: rest, acc =>
    if isAlnumCh c then alnumRunsAux rest (c :: acc)
    else if acc.isEmpty then alnumRunsAux rest []
    else acc.reverse :: alnumRunsAux rest []

/-- The word list `noCase` produces for the input. -/
def noCaseWords (s : String) : List (List Char) :=
  ((alnumRunsAux s.data []).map (fun run => camelSplitAux run [])).flatten

/-- `pascalCaseTransform` from the `pascal-case` package. -/
def pascalTransform (idx : Nat) (w : List Char) : List Char :=
  match w with
  | [] => []
  | f :: rest =>
    if idx > 0 && isDigitCh f then '_' :: f :: rest.map Char.toLower
    else Char.toUpper f :: rest.map Char.toLower

/-- `camelCaseTransform` from the `camel-case` package: the first word is
lowercased wholesale, later words are pascal-transformed. -/
def camelTransform (idx : Nat) (w : List Char) : List Char :=
  if idx == 0 then w.map Char.toLower else pascalTransform idx w

/-- `pascalCase` from the `pascal-case` npm package. -/
def pascalCase (s : String) : String :=
  String.mk (((noCaseWords s).enum.map (fun p => pascalTransform p.1 p.2)).flatten)

/-- `camelCase` from the `camel-case` npm package. -/
def camelCase (s : String) : String :=
  String.mk (((noCaseWords s).enum.map (fun p => camelTransform p.1 p.2)).flatten)

/-! ## Scalar table and the type-name resolver (source lines 16-23, 78-92) -/

/-- The own entries of the `SCALARS` object literal. -/
def SCALARS : List (String × String) :=
  [("int32", "Int"), ("int64", "BigInt"), ("float", "Float"),
   ("double", "Float"), ("string", "String"), ("bool", "Boolean")]

/-- The property names every plain object literal inherits from
`Object.prototype`, all visible to the JavaScript `in` operator. -/
def OBJECT_PROTOTYPE_KEYS : List String :=
  ["constructor", "hasOwnProperty", "isPrototypeOf", "propertyIsEnumerable",
   "toLocaleString", "toString", "valueOf", "__proto__",
   "__defineGetter__", "__defineSetter__", "__lookupGetter__", "__lookupSetter__"]

/-- `typePath in SCALARS`: the `in` operator consults the prototype chain,
so it is true for the six own keys of the table and also for every
property name inherited from `Object.prototype`. -/
def jsInScalars (typePath : String) : Bool :=
  (SCALARS.lookup typePath).isSome || OBJECT_PROTOTYPE_KEYS.contains typePath

/-- What the resolver returns: one of the string values of the table, a
computed type-name string, or — for a reference named like an
`Object.prototype` member, where `SCALARS[typePath]` evaluates to the
inherited method — that inherited function object. -/
inductive TypeNameVal where
  | str (s : String)
  | protoFn (prop : String)
deriving DecidableEq

/-- The configuration fields the schema-derivation engine reads. -/
structure GrpcConfig where
  packageName : String
  serviceName : String
deriving DecidableEq

/-- The base type name `getTypeName` computes for a non-scalar reference:
`pascalCase(typePath.replace(config.packageName + '.', '').split('.').join('_'))`. -/
def basePascalName (cfg : GrpcConfig) (typePath : String) : String :=
  pascalCase (jsJoin "_" (jsSplitChar '.' (jsReplaceFirst typePath (cfg.packageName ++ "."))))

/-- `getTypeName(typePath, isInput)` from the source, with the set of enum
type names registered in the `SchemaComposer` (queried through
`schemaComposer.isEnumType`) made an explicit parameter.  When
`typePath in SCALARS` holds, the code returns `SCALARS[typePath]`: one of
the six mapped scalar names for an own key, the inherited
`Object.prototype` function for an inherited property name. -/
def getTypeName (cfg : GrpcConfig) (enumTypes : List String)
    (typePath : String) (isInput : Bool) : TypeNameVal :=
  if jsInScalars typePath then
    match SCALARS.lookup typePath with
    | some scalar => .str scalar
    | none => .protoFn typePath
  else
    let baseTypeName := basePascalName cfg typePath
    if isInput && !(enumTypes.contains baseTypeName) then .str (baseTypeName ++ "Input")
    else .str baseTypeName

/-! ## Schema registrations

The `SchemaComposer` mutations performed by `visit` (enum types, paired
input/object types, and root fields with their resolvers) are modelled as
an append-only list of registrations.  Resolver and subscribe closures are
represented by tags; their behaviour is given by `runResolve` /
`runSubscribe` below. -/

/-- The three root type composers of the `SchemaComposer`. -/
inductive RootKind where
  | query
  | mutation
  | subscription
deriving DecidableEq

/-- The `resolve` closures the handler installs:
`(_, args) => clientMethod(args.input)` for unary methods,
`(payload) => payload` for subscription fields, and
`() => ({ status: 'online' })` for the ping field. -/
inductive ResolveTag where
  | unaryCall (methodName : String)
  | passthrough
  | serverStatus
deriving DecidableEq

/-- The `subscribe` closure `(__, args) => clientMethod(args.input)`
installed on streaming fields; `clientMethod` starts the client stream for
`methodName` and wraps it in `withCancel`. -/
inductive SubscribeTag where
  | streamCall (methodName : String)
deriving DecidableEq

/-- A deferred field type: either a thunk `() => getTypeName(path, isInput)`
or a literal type name such as `'ServerStatus'`. -/
inductive TypeThunk where
  | resolveOutput (typePath : String)
  | literal (name : String)
deriving DecidableEq

/-- The single `input` argument of a generated method field; its type is
the thunk `() => getTypeName(requestType, true)`. -/
structure ArgSpec where
  inputType : String
deriving DecidableEq

/-- One root field registration. -/
structure FieldReg where
  root : RootKind
  name : String
  type : TypeThunk
  args : Option ArgSpec
  subscribe : Option SubscribeTag
  resolve : ResolveTag
deriving DecidableEq

/-- A message field as it appears in the reflection JSON: a type reference
and an optional rule (`'repeated'` for list fields). -/
structure ProtoField where
  type : String
  rule : Option String
deriving DecidableEq

/-- A service method as it appears in the reflection JSON. -/
structure MethodDef where
  requestType : String
  responseType : String
  responseStream : Bool
deriving DecidableEq

/-- Everything `visit` registers into the `SchemaComposer`:
`createEnumTC`, `createInputTC`, `createObjectTC`, and `addFields` on a
root composer. -/
inductive Reg where
  | enumTC (name : String) (values : List (String × String))
  | inputTC (name : String) (fields : List (String × ProtoField))
  | objectTC (name : String) (fields : List (String × ProtoField))
  | field (f : FieldReg)
deriving DecidableEq

/-- The protobufjs reflection JSON, as a tagged tree.  The source
classifies nodes structurally (`'values' in nested`, `'fields' in nested`,
`'methods' in nested`, `'nested' in nested`, checked in that order); the
four shapes are mutually exclusive in loader output, so a closed variant
is a faithful model. -/
inductive ProtoNode where
  | enumN (values : List String)
  | messageN (fields : List (String × ProtoField))
  | serviceN (methods : List (String × MethodDef))
  | namespaceN (children : List (String × ProtoNode))

/-! ## Name qualification (source lines 112-116, 127-131, 166-174, 209-215) -/

/-- Type-name qualification used by both the enum and the message branch:
the local name, prefixed by the underscore-joined namespace path and
pascal-cased, unless the current path equals the configured package. -/
def qualifyTypeName (cfg : GrpcConfig) (name currentPath : String) : String :=
  if currentPath ≠ cfg.packageName then
    pascalCase (jsJoin "_" (jsSplitChar '.' currentPath) ++ "_" ++ name)
  else name

/-- Root-field-name qualification used for both method fields and the ping
field: prefix the service name unless it is the configured primary
service, then prefix the namespace path unless it equals the configured
package, camel-casing at each applied step. -/
def qualifyRootFieldName (cfg : GrpcConfig) (serviceName currentPath base : String) : String :=
  let r := base
  let r := if serviceName ≠ cfg.serviceName then camelCase (serviceName ++ "_" ++ r) else r
  if currentPath ≠ cfg.packageName then
    camelCase (jsJoin "_" (jsSplitChar '.' currentPath) ++ "_" ++ r)
  else r

/-! ## Service builder (source lines 161-221) -/

/-- The field registered for one service method (source lines 166-206). -/
def methodFieldReg (cfg : GrpcConfig) (name currentPath methodName : String)
    (m : MethodDef) : FieldReg :=
  let rootFieldName := qualifyRootFieldName cfg name currentPath methodName
  if m.responseStream then
    { root := .subscription, name := rootFieldName,
      type := .resolveOutput m.responseType, args := some ⟨m.requestType⟩,
      subscribe := some (.streamCall methodName), resolve := .passthrough }
  else
    let identifier := jsToLowerCase methodName
    let rootKind := if jsStartsWith identifier "get" then RootKind.query else RootKind.mutation
    { root := rootKind, name := rootFieldName,
      type := .resolveOutput m.responseType, args := some ⟨m.requestType⟩,
      subscribe := none, resolve := .unaryCall methodName }

/-- The liveness-check field registered after the methods of a service
(source lines 209-221). -/
def pingFieldReg (cfg : GrpcConfig) (name currentPath : String) : FieldReg :=
  { root := .query, name := qualifyRootFieldName cfg name currentPath "ping",
    type := .literal "ServerStatus", args := none,
    subscribe := none, resolve := .serverStatus }

/-- All registrations produced by the service branch of `visit`. -/
def serviceRegs (cfg : GrpcConfig) (name currentPath : String)
    (methods : List (String × MethodDef)) : List Reg :=
  methods.map (fun p => Reg.field (methodFieldReg cfg name currentPath p.1 p.2))
    ++ [Reg.field (pingFieldReg cfg name currentPath)]

/-! ## The recursive visitor (source lines 111-234) -/

mutual

/-- `visit(nested, name, currentPath)`: the recursive traversal.  The
namespace branch recurses into every child with path
`currentPath ? currentPath + '.' + name : name`. -/
def visit (cfg : GrpcConfig) : ProtoNode → String → String → List Reg
  | .enumN values, name, currentPath =>
    [Reg.enumTC (qualifyTypeName cfg name currentPath)
      (values.map (fun k => (k, k)))]
  | .messageN fields, name, currentPath =>
    let typeName := qualifyTypeName cfg name currentPath
    [Reg.inputTC (typeName ++ "Input") fields, Reg.objectTC typeName fields]
  | .serviceN methods, name, currentPath =>
    serviceRegs cfg name currentPath methods
  | .namespaceN children, name, currentPath =>
    visitChildren cfg children (if currentPath ≠ "" then currentPath ++ "." ++ name else name)

/-- The `Promise.all` over a namespace's children. -/
def visitChildren (cfg : GrpcConfig) : List (String × ProtoNode) → String → List Reg
  | [], _ => []
  | (key, child) :: rest, path => visit cfg child key path ++ visitChildren cfg rest path

end

/-! ## Deferred type resolution and resolver behaviour -/

/-- The enum type names registered during a traversal, i.e. the state
`schemaComposer.isEnumType` consults when the lazy field-type thunks are
forced at schema-build time. -/
def enumNamesOf (regs : List Reg) : List String :=
  regs.filterMap (fun r => match r with | .enumTC n _ => some n | _ => none)

/-- Force a field-type thunk. -/
def resolveThunk (cfg : GrpcConfig) (enums : List String) : TypeThunk → TypeNameVal
  | .resolveOutput p => getTypeName cfg enums p false
  | .literal n => .str n

/-- Force the input-argument type thunk `() => getTypeName(requestType, true)`. -/
def resolveArg (cfg : GrpcConfig) (enums : List String) (a : ArgSpec) : TypeNameVal :=
  getTypeName cfg enums a.inputType true

/-- The GraphQL arguments object; the generated fields only ever read
`args.input`. -/
structure ResolverArgs (V : Type) where
  input : V
deriving DecidableEq

/-- A call into the gRPC client: which method, with which input. -/
structure CallSpec (V : Type) where
  methodName : String
  input : V
deriving DecidableEq

/-- What a resolver evaluates to. -/
inductive ResolveOutcome (V : Type) where
  | call (c : CallSpec V)
  | payload (v : V)
  | status (s : String)
deriving DecidableEq

/-- Behaviour of the installed `resolve` closures.  `source` is the first
resolver parameter (the parent value for query/mutation fields, the
already-produced payload for subscription fields). -/
def runResolve {V : Type} (t : ResolveTag) (source : V) (args : ResolverArgs V) :
    ResolveOutcome V :=
  match t with
  | .unaryCall mn => .call ⟨mn, args.input⟩
  | .passthrough => .payload source
  | .serverStatus => .status "online"

/-- Behaviour of the installed `subscribe` closure: start the client
stream for the method with `args.input`. -/
def runSubscribe {V : Type} (t : SubscribeTag) (args : ResolverArgs V) : CallSpec V :=
  match t with
  | .streamCall mn => ⟨mn, args.input⟩

/-! ## `protoFilePath` handling in `getMeshSource` (source lines 95-107) -/

/-- A JavaScript value supplied as `load.includeDirs`: `undefined` is
`none`; a defined value is an array, some other truthy value, or some
other falsy value (the only distinctions lines 100-104 make). -/
inductive IncludeDirsVal where
  | arr (dirs : List String)
  | truthyNonArray
  | falsyNonArray
deriving DecidableEq

/-- Truthiness of `options.includeDirs` (arrays, including the empty
array, are truthy in JavaScript). -/
def includeDirsTruthy : Option IncludeDirsVal → Bool
  | none => false
  | some (.arr _) => true
  | some .truthyNonArray => true
  | some .falsyNonArray => false

/-- The `load` options object of an object-shaped `protoFilePath`. -/
structure LoadOpts where
  includeDirs : Option IncludeDirsVal
deriving DecidableEq

/-- An object-shaped `config.protoFilePath`; either key may be absent. -/
structure ProtoFileObject where
  file : Option String
  load : Option LoadOpts
deriving DecidableEq

/-- `config.protoFilePath`: a plain path string or a `{file, load}` object. -/
inductive ProtoFilePathCfg where
  | str (path : String)
  | obj (o : ProtoFileObject)
deriving DecidableEq

/-- Truthiness of `config.protoFilePath.file` (a string is falsy exactly
when empty). -/
def fileTruthy : Option String → Bool
  | none => false
  | some s => !s.isEmpty

/-- How the `getMeshSource` promise fails before the proto is loaded: a
thrown `TypeError` from reading a property of `undefined`, or the explicit
`Promise.reject(new Error('The includeDirs option must be an array'))`. -/
inductive ConfigFailure where
  | typeErrorReadingOfUndefined (prop : String)
  | rejectedError (msg : String)
deriving DecidableEq

/-- The value left in the `fileName` variable, which starts as
`config.protoFilePath` and is overwritten only inside the object branch. -/
inductive FileNameVal where
  | path (p : String)
  | objVal (o : ProtoFileObject)
deriving DecidableEq

/-- Lines 95-106 of the source: compute `fileName` and the include
directories to install, or fail.  When `protoFilePath` is an object with a
truthy `file`, the code unconditionally reads `options.includeDirs` from
`options = config.protoFilePath.load`; if `load` is absent that read
throws a `TypeError`. -/
def prepareLoad (pfp : ProtoFilePathCfg) : Except ConfigFailure (FileNameVal × List String) :=
  match pfp with
  | .str p => .ok (.path p, [])
  | .obj o =>
    if fileTruthy o.file then
      match o.load with
      | none => .error (.typeErrorReadingOfUndefined "includeDirs")
      | some opts =>
        if includeDirsTruthy opts.includeDirs then
          match opts.includeDirs with
          | some (.arr dirs) => .ok (.path (o.file.getD ""), dirs)
          | _ => .error (.rejectedError "The includeDirs option must be an array")
        else .ok (.path (o.file.getD ""), [])
    else .ok (.objVal o, [])

/-- The part of `getMeshSource` the claims reach: configuration handling,
then (only if that succeeded) the load/traversal producing the schema
registrations. -/
def getMeshSourceRegs (pfp : ProtoFilePathCfg) (cfg : GrpcConfig) (tree : ProtoNode) :
    Except ConfigFailure (List Reg) :=
  match prepareLoad pfp with
  | .error e => .error e
  | .ok _ => .ok (visit cfg tree "" "")

/-! ## Streaming cancellation

Modelled from the spec: the wrapper `withCancel` that the subscription
binding applies to the client stream (`withCancel(responseStream, () =>
responseStream.cancel())`) is imported from the utils package of this
repository, which is not under `src/`.  Following sections 4.5, 5 and 9 of
the specification, the produced cancellable asynchronous sequence is
modelled as a state machine: it yields the stream's pending messages in
order, cancellation invokes the underlying stream's cancel operation and is
idempotent, and a cancelled sequence delivers nothing. -/
structure CancellableSeq (α : Type) where
  pending : List α
  cancelled : Bool
  cancelCalls : Nat
deriving DecidableEq

/-- The sequence produced by the streaming-call binding for a stream that
will emit `elems`: nothing consumed, not cancelled, the underlying cancel
operation never invoked. -/
def streamBinding {α : Type} (elems : List α) : CancellableSeq α :=
  ⟨elems, false, 0⟩

/-- Pull one element from the sequence. -/
def CancellableSeq.next {α : Type} (s : CancellableSeq α) : Option α × CancellableSeq α :=
  if s.cancelled then (none, s)
  else
    match s.pending with
    | [] => (none, s)
    | x :: rest => (some x, { s with pending := rest })

/-- Issue cancellation: on an active sequence this invokes the underlying
stream's cancel operation once and stops delivery; on an already-cancelled
sequence it does nothing (cancellation is idempotent per the spec). -/
def CancellableSeq.cancel {α : Type} (s : CancellableSeq α) : CancellableSeq α :=
  if s.cancelled then s
  else { s with cancelled := true, cancelCalls := s.cancelCalls + 1 }

/-- The state after consuming `n` elements. -/
def CancellableSeq.consume {α : Type} (s : CancellableSeq α) : Nat → CancellableSeq α
  | 0 => s
  | n + 1 => (s.next.2).consume n

/-- The elements delivered by up to `n` successive pulls. -/
def CancellableSeq.deliver {α : Type} (s : CancellableSeq α) : Nat → List α
  | 0 => []
  | n + 1 =>
    match s.next with
    | (none, _) => []
    | (some x, s') => x :: s'.deliver n

/-- Issue cancellation `k` more times. -/
def CancellableSeq.cancelN {α : Type} (s : CancellableSeq α) : Nat → CancellableSeq α
  | 0 => s
  | k + 1 => (s.cancelN k).cancel

/-! ## Concrete scenario trees -/

/-- Configuration of the scenarios: package `com.acme`, primary service
`Greeter`. -/
def acmeCfg : GrpcConfig := ⟨"com.acme", "Greeter"⟩

/-- The reflection JSON of the `SayHello` scenario: package `com.acme`
with messages `HelloRequest`, `HelloReply` and service `Greeter` with the
unary method `SayHello`. -/
def helloTree : ProtoNode :=
  .namespaceN [("com", .namespaceN [("acme", .namespaceN [
    ("HelloRequest", .messageN [("name", ⟨"string", none⟩)]),
    ("HelloReply", .messageN [("message", ⟨"string", none⟩)]),
    ("Greeter", .serviceN [("SayHello", ⟨"HelloRequest", "HelloReply", false⟩)])])])]

/-- `helloTree` extended with the nested namespace `com.acme.v2` holding
the non-primary service `Greeter2` with its own `SayHello`. -/
def helloTree2 : ProtoNode :=
  .namespaceN [("com", .namespaceN [("acme", .namespaceN [
    ("HelloRequest", .messageN [("name", ⟨"string", none⟩)]),
    ("HelloReply", .messageN [("message", ⟨"string", none⟩)]),
    ("Greeter", .serviceN [("SayHello", ⟨"HelloRequest", "HelloReply", false⟩)]),
    ("v2", .namespaceN [
      ("Greeter2", .serviceN [("SayHello", ⟨"HelloRequest", "HelloReply", false⟩)])])])])]

/-- All registrations of the `SayHello` scenario, as produced by the
top-level call `visit(rootNested, '', '')`. -/
def helloRegs : List Reg := visit acmeCfg helloTree "" ""

/-- All registrations of the nested-namespace scenario. -/
def helloRegs2 : List Reg := visit acmeCfg helloTree2 "" ""

/-- The fields registered on a given root composer, in registration order. -/
def rootFieldsOf (k : RootKind) (regs : List Reg) : List FieldReg :=
  regs.filterMap (fun r =>
    match r with
    | .field f => if f.root = k then some f else none
    | _ => none)

/-! ## Lemmas about the first-occurrence replace -/

/-- When the pattern is a prefix, the JavaScript replace strips it from
the front. -/
theorem jsReplaceFirstAux_of_isPrefixOf (pat l : List Char)
    (h : pat.isPrefixOf l = true) :
    jsReplaceFirstAux pat l = l.drop pat.length := by
  cases l with
  | nil =>
    have : pat = [] := by
      cases pat with
      | nil => rfl
      | cons c cs => simp [List.isPrefixOf] at h
    subst this
    rfl
  | cons c rest => simp [jsReplaceFirstAux, h]

/-- When the pattern occurs nowhere, the JavaScript replace leaves the
string intact. -/
theorem jsReplaceFirstAux_of_not_occurs (pat l : List Char)
    (h : occursIn pat l = false) :
    jsReplaceFirstAux pat l = l := by
  induction l with
  | nil => rfl
  | cons c rest ih =>
    simp only [occursIn, Bool.or_eq_false_iff] at h
    simp [jsReplaceFirstAux, h.1, ih h.2]

/-! ## Claim theorems -/

/-- Counterexample to C4: the reference `toString` is not a key of the
six-entry scalar table and its base name `ToString` is not a registered
enum, so the claim predicts the input-context name
`ToStringInput = ToString + "Input"`; but the program's scalar check
`typePath in SCALARS` is true for the inherited `Object.prototype`
property name `toString`, so `getTypeName` returns the inherited function
object in both contexts and no `Input` suffix is ever appended. -/
theorem C4_proto_key_cex :
    SCALARS.lookup "toString" = none ∧
    (([] : List String).contains (basePascalName acmeCfg "toString")) = false ∧
    getTypeName acmeCfg [] "toString" true = TypeNameVal.protoFn "toString" ∧
    getTypeName acmeCfg [] "toString" true = getTypeName acmeCfg [] "toString" false ∧
    getTypeName acmeCfg [] "toString" true ≠
      TypeNameVal.str (basePascalName acmeCfg "toString" ++ "Input") :=
  ⟨rfl, rfl, rfl, rfl, by decide⟩

/-- C4 as amended: for every type reference the program's scalar check
does not catch — neither one of the six scalar-table keys nor a property
name inherited from `Object.prototype` — whose base name is not
registered as an enum type, the input-context result of `getTypeName` is
the output-context name with `"Input"` appended; for every reference
whose base name is registered as an enum type, the two contexts agree
(references caught by the scalar check also yield equal results in both
contexts). -/
theorem C4_input_output_bifurcation (cfg : GrpcConfig) (enums : List String) (t : String) :
    (jsInScalars t = false → enums.contains (basePascalName cfg t) = false →
      ∀ s : String, getTypeName cfg enums t false = TypeNameVal.str s →
        getTypeName cfg enums t true = TypeNameVal.str (s ++ "Input")) ∧
    (enums.contains (basePascalName cfg t) = true →
      getTypeName cfg enums t true = getTypeName cfg enums t false) := by
  constructor
  · intro hs he s hout
    have he' : basePascalName cfg t ∉ enums := by simpa using he
    have hbase : getTypeName cfg enums t false = TypeNameVal.str (basePascalName cfg t) := by
      simp [getTypeName, hs]
    rw [hbase] at hout
    injection hout with h
    subst h
    simp [getTypeName, hs, he']
  · intro he
    have he' : basePascalName cfg t ∈ enums := by simpa using he
    unfold getTypeName
    cases hin : jsInScalars t with
    | true => simp
    | false => simp [he']

/-- Witness for C4 as amended at concrete inputs: `HelloRequest` is
caught by no scalar check and is no enum, so its input name is
`HelloRequest + "Input"`; with `Color` registered as an enum, both
contexts agree. -/
theorem C4_input_output_bifurcation_witness :
    getTypeName acmeCfg [] "HelloRequest" true =
      TypeNameVal.str ("HelloRequest" ++ "Input") ∧
    getTypeName acmeCfg ["Color"] "Color" true =
      getTypeName acmeCfg ["Color"] "Color" false :=
  ⟨(C4_input_output_bifurcation acmeCfg [] "HelloRequest").1
      (by decide) (by decide) "HelloRequest" (by decide),
   (C4_input_output_bifurcation acmeCfg ["Color"] "Color").2 (by decide)⟩

/-- C5: every key of the fixed scalar table maps to its scalar name
identically in input and output context; in particular `int64` maps to
`BigInt` in both contexts. -/
theorem C5_scalar_table (cfg : GrpcConfig) (enums : List String) (b : Bool) :
    getTypeName cfg enums "int32" b = TypeNameVal.str "Int" ∧
    getTypeName cfg enums "int64" b = TypeNameVal.str "BigInt" ∧
    getTypeName cfg enums "float" b = TypeNameVal.str "Float" ∧
    getTypeName cfg enums "double" b = TypeNameVal.str "Float" ∧
    getTypeName cfg enums "string" b = TypeNameVal.str "String" ∧
    getTypeName cfg enums "bool" b = TypeNameVal.str "Boolean" :=
  ⟨rfl, rfl, rfl, rfl, rfl, rfl⟩

/-- Counterexample to C6: the claim says the root-package prefix is
stripped only when it is a leading prefix of the reference, references
without that leading prefix being left intact.  The reference
`io.com.acme.Foo` does not start with `com.acme.`, so the claim predicts
the base name `IoComAcmeFoo`; the code removes the first occurrence of
`com.acme.` anywhere in the string and produces `IoFoo`. -/
theorem C6_replace_cex :
    jsInScalars "io.com.acme.Foo" = false ∧
    getTypeName acmeCfg [] "io.com.acme.Foo" false = TypeNameVal.str "IoFoo" ∧
    pascalCase (jsJoin "_" (jsSplitChar '.' "io.com.acme.Foo")) = "IoComAcmeFoo" ∧
    jsStartsWith "io.com.acme.Foo" (acmeCfg.packageName ++ ".") = false ∧
    "IoFoo" ≠ "IoComAcmeFoo" :=
  ⟨rfl, rfl, rfl, rfl, by decide⟩

/-- C6 as amended: for every type reference the program's scalar check
does not catch (neither a scalar-table key nor an `Object.prototype`
property name), `getTypeName` removes the first occurrence of
`packageName + "."` anywhere in the reference; this coincides with
leading-prefix stripping when the reference starts with the prefix, and
references in which the prefix occurs nowhere are left intact.  The result
is then split at the namespace separators, joined with underscores and
pascal-cased. -/
theorem C6_replace_amended (cfg : GrpcConfig) (enums : List String) (t : String)
    (hs : jsInScalars t = false) :
    (jsStartsWith t (cfg.packageName ++ ".") = true →
      getTypeName cfg enums t false =
        TypeNameVal.str (pascalCase (jsJoin "_" (jsSplitChar '.'
          (String.mk (t.data.drop (cfg.packageName ++ ".").data.length)))))) ∧
    (occursIn (cfg.packageName ++ ".").data t.data = false →
      getTypeName cfg enums t false =
        TypeNameVal.str (pascalCase (jsJoin "_" (jsSplitChar '.' t)))) := by
  have hbase : getTypeName cfg enums t false = TypeNameVal.str (basePascalName cfg t) := by
    simp [getTypeName, hs]
  constructor
  · intro h
    rw [hbase]
    unfold basePascalName jsReplaceFirst
    rw [jsReplaceFirstAux_of_isPrefixOf _ _ h]
  · intro h
    rw [hbase]
    unfold basePascalName jsReplaceFirst
    rw [jsReplaceFirstAux_of_not_occurs _ _ h]

/-- Witness for C6 as amended: with package `com.acme`, the leading-prefix
reference `com.acme.HelloRequest` resolves to `HelloRequest`, and
`other.Thing`, which contains the prefix nowhere, resolves to
`OtherThing`. -/
theorem C6_replace_amended_witness :
    getTypeName acmeCfg [] "com.acme.HelloRequest" false = TypeNameVal.str "HelloRequest" ∧
    getTypeName acmeCfg [] "other.Thing" false = TypeNameVal.str "OtherThing" :=
  ⟨((C6_replace_amended acmeCfg [] "com.acme.HelloRequest" (by decide)).1
      (by decide)).trans (by decide),
   ((C6_replace_amended acmeCfg [] "other.Thing" (by decide)).2
      (by decide)).trans (by decide)⟩

/-- C1: a non-streaming method whose declared name starts
case-insensitively with `get` is registered under the Query root; any
other non-streaming method under the Mutation root; a server-streaming
method under the Subscription root, with a distinct subscribe closure and
a resolve closure returning the already-produced payload unchanged. -/
theorem C1_method_routing (cfg : GrpcConfig) (name currentPath methodName : String)
    (m : MethodDef) :
    (m.responseStream = false →
      (jsStartsWith (jsToLowerCase methodName) "get" = true →
        (methodFieldReg cfg name currentPath methodName m).root = RootKind.query) ∧
      (jsStartsWith (jsToLowerCase methodName) "get" = false →
        (methodFieldReg cfg name currentPath methodName m).root = RootKind.mutation)) ∧
    (m.responseStream = true →
      (methodFieldReg cfg name currentPath methodName m).root = RootKind.subscription ∧
      (methodFieldReg cfg name currentPath methodName m).subscribe =
        some (SubscribeTag.streamCall methodName) ∧
      (methodFieldReg cfg name currentPath methodName m).resolve = ResolveTag.passthrough ∧
      ∀ (V : Type) (p : V) (a : ResolverArgs V),
        runResolve (methodFieldReg cfg name currentPath methodName m).resolve p a =
          ResolveOutcome.payload p) := by
  constructor
  · intro hns
    constructor
    · intro hget
      simp [methodFieldReg, hns, hget]
    · intro hget
      simp [methodFieldReg, hns, hget]
  · intro hs
    refine ⟨by simp [methodFieldReg, hs], by simp [methodFieldReg, hs],
      by simp [methodFieldReg, hs], ?_⟩
    intro V p a
    simp [methodFieldReg, hs, runResolve]

/-- Witness for C1: unary `GetStatus` lands under Query, unary `SayHello`
under Mutation, streaming `Watch` under Subscription. -/
theorem C1_method_routing_witness :
    (methodFieldReg acmeCfg "Greeter" "com.acme" "GetStatus"
      ⟨"StatusRequest", "StatusReply", false⟩).root = RootKind.query ∧
    (methodFieldReg acmeCfg "Greeter" "com.acme" "SayHello"
      ⟨"HelloRequest", "HelloReply", false⟩).root = RootKind.mutation ∧
    (methodFieldReg acmeCfg "Greeter" "com.acme" "Watch"
      ⟨"WatchRequest", "Event", true⟩).root = RootKind.subscription :=
  ⟨((C1_method_routing acmeCfg "Greeter" "com.acme" "GetStatus"
      ⟨"StatusRequest", "StatusReply", false⟩).1 (by decide)).1 (by decide),
   ((C1_method_routing acmeCfg "Greeter" "com.acme" "SayHello"
      ⟨"HelloRequest", "HelloReply", false⟩).1 (by decide)).2 (by decide),
   ((C1_method_routing acmeCfg "Greeter" "com.acme" "Watch"
      ⟨"WatchRequest", "Event", true⟩).2 (by decide)).1⟩

/-- Counterexample to C2: in the `com.acme` / primary `Greeter` scenario
the unary method `SayHello` is registered under the Mutation root, but
under the name `SayHello`, the declared method name verbatim — lower
camel-casing is applied only inside the two qualification branches, both
of which are skipped for a primary service at the root package — so the
claimed field name `sayHello` does not occur. -/
theorem C2_primary_field_name_cex :
    (rootFieldsOf RootKind.mutation helloRegs).map (fun f => f.name) = ["SayHello"] ∧
    "SayHello" ≠ "sayHello" :=
  ⟨rfl, by decide⟩

/-- C2 as amended: the scenario yields a single Mutation field whose name
is the declared method name `SayHello` used verbatim, with the single
argument `input` of type `HelloRequestInput` and output type
`HelloReply`. -/
theorem C2_primary_field_amended :
    rootFieldsOf RootKind.mutation helloRegs =
      [{ root := RootKind.mutation, name := "SayHello",
         type := TypeThunk.resolveOutput "HelloReply",
         args := some ⟨"HelloRequest"⟩, subscribe := none,
         resolve := ResolveTag.unaryCall "SayHello" }] ∧
    resolveArg acmeCfg (enumNamesOf helloRegs) ⟨"HelloRequest"⟩ =
      TypeNameVal.str "HelloRequestInput" ∧
    resolveThunk acmeCfg (enumNamesOf helloRegs) (TypeThunk.resolveOutput "HelloReply") =
      TypeNameVal.str "HelloReply" :=
  ⟨rfl, rfl, rfl⟩

/-- Counterexample to C3: at the root package the registered type
identifier is the node's local name used verbatim, not its upper-camel
conversion: the enum `status_kind` is registered as `status_kind`, the
message `hello_reply` as `hello_reply` / `hello_replyInput`, while the
claimed conversion would give `StatusKind` and `HelloReply`. -/
theorem C3_root_package_cex :
    visit acmeCfg (.enumN ["OK"]) "status_kind" "com.acme" =
      [Reg.enumTC "status_kind" [("OK", "OK")]] ∧
    visit acmeCfg (.messageN []) "hello_reply" "com.acme" =
      [Reg.inputTC "hello_replyInput" [], Reg.objectTC "hello_reply" []] ∧
    "status_kind" ≠ pascalCase "status_kind" ∧
    "hello_reply" ≠ pascalCase "hello_reply" :=
  ⟨rfl, rfl, by decide, by decide⟩

/-- C3 as amended: for every enum or message node whose current namespace
path equals the configured root package, the registered schema type
identifier is the node's local name unchanged (no case conversion), with
no namespace qualification applied. -/
theorem C3_root_package_amended (cfg : GrpcConfig) (name : String)
    (values : List String) (fields : List (String × ProtoField)) :
    visit cfg (.enumN values) name cfg.packageName =
      [Reg.enumTC name (values.map (fun k => (k, k)))] ∧
    visit cfg (.messageN fields) name cfg.packageName =
      [Reg.inputTC (name ++ "Input") fields, Reg.objectTC name fields] := by
  constructor <;> simp [visit, qualifyTypeName]

/-- Counterexample to C7: for the non-primary service `Greeter2` in the
nested namespace `com.acme.v2`, the generated root field name is
`comAcmeV2Greeter2SayHello`, not a name of the claimed form
`acmeV2_greeter2_sayHello`: camel-casing collapses the underscores and the
full namespace path, including the root segment `com`, is used. -/
theorem C7_nested_service_name_cex :
    (rootFieldsOf RootKind.mutation helloRegs2).map (fun f => f.name) =
      ["SayHello", "comAcmeV2Greeter2SayHello"] ∧
    "acmeV2_greeter2_sayHello" ∉
      (rootFieldsOf RootKind.mutation helloRegs2).map (fun f => f.name) :=
  ⟨rfl, by decide⟩

/-- C7 as amended: the field name of `Greeter2.SayHello` is produced by
first camel-casing the service-name prefix and then camel-casing the
namespace-path prefix, yielding `comAcmeV2Greeter2SayHello`, which is
distinct from the primary root service's `SayHello` field. -/
theorem C7_nested_service_name_amended :
    qualifyRootFieldName acmeCfg "Greeter2" "com.acme.v2" "SayHello" =
      camelCase (jsJoin "_" (jsSplitChar '.' "com.acme.v2") ++ "_" ++
        camelCase ("Greeter2" ++ "_" ++ "SayHello")) ∧
    qualifyRootFieldName acmeCfg "Greeter2" "com.acme.v2" "SayHello" =
      "comAcmeV2Greeter2SayHello" ∧
    Reg.field (methodFieldReg acmeCfg "Greeter2" "com.acme.v2" "SayHello"
      ⟨"HelloRequest", "HelloReply", false⟩) ∈ helloRegs2 ∧
    (rootFieldsOf RootKind.mutation helloRegs2).map (fun f => f.name) =
      ["SayHello", "comAcmeV2Greeter2SayHello"] ∧
    "comAcmeV2Greeter2SayHello" ≠ "SayHello" :=
  ⟨rfl, rfl, by decide, rfl, by decide⟩

/-- Is a registration the liveness-check field (recognisable by its
`() => ({ status: 'online' })` resolver)? -/
def isLivenessReg (r : Reg) : Bool :=
  match r with
  | .field f => f.resolve == ResolveTag.serverStatus
  | _ => false

/-- A method field never carries the liveness resolver. -/
theorem methodFieldReg_not_liveness (cfg : GrpcConfig)
    (name currentPath methodName : String) (m : MethodDef) :
    isLivenessReg (Reg.field (methodFieldReg cfg name currentPath methodName m)) = false := by
  cases hm : m.responseStream <;> simp [methodFieldReg, isLivenessReg, hm]

/-- C8: every visited service registers exactly one liveness-check field
in addition to its method fields; it goes under the Query root, its name
is the base name `ping` qualified by service name and namespace path
through the same steps as method fields, its type is `ServerStatus`, and
its resolver ignores its arguments and returns the status-`online`
payload. -/
theorem C8_ping_field (cfg : GrpcConfig) (name currentPath : String)
    (methods : List (String × MethodDef)) :
    (serviceRegs cfg name currentPath methods).countP isLivenessReg = 1 ∧
    (serviceRegs cfg name currentPath methods).length = methods.length + 1 ∧
    Reg.field (pingFieldReg cfg name currentPath) ∈
      serviceRegs cfg name currentPath methods ∧
    (pingFieldReg cfg name currentPath).root = RootKind.query ∧
    (pingFieldReg cfg name currentPath).name =
      qualifyRootFieldName cfg name currentPath "ping" ∧
    (pingFieldReg cfg name currentPath).type = TypeThunk.literal "ServerStatus" ∧
    ∀ (V : Type) (p : V) (a : ResolverArgs V),
      runResolve (pingFieldReg cfg name currentPath).resolve p a =
        ResolveOutcome.status "online" := by
  refine ⟨?_, ?_, ?_, rfl, rfl, rfl, ?_⟩
  · rw [serviceRegs, List.countP_append, List.countP_map]
    have hz : List.countP (isLivenessReg ∘ fun p =>
        Reg.field (methodFieldReg cfg name currentPath p.1 p.2)) methods = 0 := by
      rw [List.countP_eq_zero]
      intro p _
      simp [methodFieldReg_not_liveness]
    rw [hz]
    rfl
  · simp [serviceRegs]
  · simp [serviceRegs]
  · intro V p a
    rfl

/-- C9: cancelling a live subscription sequence produced by the
streaming-call binding — however many elements have already been consumed
— invokes the underlying stream's cancel operation exactly once (repeated
cancellation does not invoke it again), and afterwards no further
elements are delivered.

Modelled from the spec: `withCancel`, imported from the utils package of
the repository, is not under `src/`; the cancellable sequence follows the
spec's state-machine description. -/
theorem C9_cancellation (α : Type) (elems : List α) (n : Nat) :
    (((streamBinding elems).consume n).cancel).cancelCalls = 1 ∧
    (∀ k, ((((streamBinding elems).consume n).cancel).cancelN k).cancelCalls = 1) ∧
    (∀ m, (((streamBinding elems).consume n).cancel).deliver m = []) := by
  have hnext : ∀ s : CancellableSeq α,
      s.next.2.cancelled = s.cancelled ∧ s.next.2.cancelCalls = s.cancelCalls := by
    intro s
    unfold CancellableSeq.next
    split
    · exact ⟨rfl, rfl⟩
    · split <;> exact ⟨rfl, rfl⟩
  have hconsume : ∀ (k : Nat) (s : CancellableSeq α),
      (s.consume k).cancelled = s.cancelled ∧ (s.consume k).cancelCalls = s.cancelCalls := by
    intro k
    induction k with
    | zero => intro s; exact ⟨rfl, rfl⟩
    | succ k ih =>
      intro s
      have h1 := hnext s
      have h2 := ih s.next.2
      exact ⟨by rw [CancellableSeq.consume, h2.1, h1.1],
             by rw [CancellableSeq.consume, h2.2, h1.2]⟩
  have hstart := hconsume n (streamBinding elems)
  have hc0 : ((streamBinding elems).consume n).cancelled = false := by
    rw [hstart.1]; rfl
  have hk0 : ((streamBinding elems).consume n).cancelCalls = 0 := by
    rw [hstart.2]; rfl
  have hcalls : (((streamBinding elems).consume n).cancel).cancelCalls = 1 := by
    unfold CancellableSeq.cancel
    rw [hc0]
    simp [hk0]
  have hcanc : (((streamBinding elems).consume n).cancel).cancelled = true := by
    unfold CancellableSeq.cancel
    rw [hc0]
    simp
  have hfix : ∀ t : CancellableSeq α, t.cancelled = true → t.cancel = t := by
    intro t ht
    unfold CancellableSeq.cancel
    rw [ht]
    simp
  have hcancNc : ∀ k, ((((streamBinding elems).consume n).cancel).cancelN k).cancelled = true := by
    intro k
    induction k with
    | zero => exact hcanc
    | succ j ihj =>
      rw [CancellableSeq.cancelN, hfix _ ihj]
      exact ihj
  refine ⟨hcalls, ?_, ?_⟩
  · intro k
    induction k with
    | zero => exact hcalls
    | succ j ihj =>
      rw [CancellableSeq.cancelN, hfix _ (hcancNc j)]
      exact ihj
  · intro m
    cases m with
    | zero => rfl
    | succ m =>
      rw [CancellableSeq.deliver]
      have : (((streamBinding elems).consume n).cancel).next =
          (none, ((streamBinding elems).consume n).cancel) := by
        unfold CancellableSeq.next
        rw [hcanc]
        simp
      rw [this]

/-- C10: when `protoFilePath` is an object carrying a (truthy) `file` key
but no `load` key, `getMeshSource` fails with the `TypeError` thrown by
reading `includeDirs` off the undefined load options, before any proto
loading or traversal begins — it neither proceeds with empty load options
nor reports a configuration error. -/
theorem C10_missing_load_options (f : String) (h : f.isEmpty = false)
    (cfg : GrpcConfig) (tree : ProtoNode) :
    getMeshSourceRegs (ProtoFilePathCfg.obj ⟨some f, none⟩) cfg tree =
      Except.error (ConfigFailure.typeErrorReadingOfUndefined "includeDirs") := by
  simp [getMeshSourceRegs, prepareLoad, fileTruthy, h]

/-- Witness for C10 at the concrete path `service.proto`. -/
theorem C10_missing_load_options_witness :
    getMeshSourceRegs (ProtoFilePathCfg.obj ⟨some "service.proto", none⟩) acmeCfg helloTree =
      Except.error (ConfigFailure.typeErrorReadingOfUndefined "includeDirs") :=
  C10_missing_load_options "service.proto" (by decide) acmeCfg helloTree

end GrpcHandler
